import Mathlib

/-!
Verification of the azsh core (mention resolution, active-scope cache,
tool-safety gate, slash-command dispatch and the REPL turn loop) against
its natural-language specification.  Python strings are modelled as
`List Char`; the `az` subprocess boundary, the file system and the agent
runtime are modelled as explicit parameters (oracles / environments), so
every definition below is executable.
-/

namespace Azsh

/-! ## Python string helpers

`isPySpace` is Python's `str` whitespace class (ASCII part), used by
`str.strip`, `str.split` and the regex `\S`.  `isWordChar` is the regex
`\w` class (ASCII part), used for the `\b` boundary in `@sub\b`. -/

def isPySpace (c : Char) : Bool :=
  c = ' ' ∨ c = '\t' ∨ c = '\n' ∨ c = '\r' ∨ c = '\x0b' ∨ c = '\x0c'

def isWordChar (c : Char) : Bool :=
  c.isAlpha ∨ c.isDigit ∨ c = '_'

/-- Python `str.lower` (ASCII behaviour, which is all the code relies on). -/
def lowerStr (cs : List Char) : List Char := cs.map Char.toLower

/-- Python `str.strip()`: remove leading and trailing whitespace. -/
def stripStr (cs : List Char) : List Char :=
  ((cs.dropWhile isPySpace).reverse.dropWhile isPySpace).reverse

/-- Python's substring test `needle in hay`. -/
def isSubstr (needle : List Char) : List Char → Bool
  | [] => needle.isEmpty
  | c :: cs => needle.isPrefixOf (c :: cs) || isSubstr needle cs

/-! ## Tool-safety gate (`agent.py`)

`DESTRUCTIVE_KEYWORDS`, `OUR_TOOLS` and the decision logic of
`on_pre_tool_use` are transcribed from `src/azsh/agent.py`.  The hook's
console output is irrelevant to the decision and is not modelled; the
command string extracted from the tool arguments is a parameter. -/

def DESTRUCTIVE_KEYWORDS : List (List Char) :=
  ["delete".data, "destroy".data, "remove".data, "drop".data, "purge".data,
   "az group delete".data, "terraform destroy".data, "kubectl delete".data,
   "rm -rf".data]

def OUR_TOOLS : List (List Char) :=
  ["run_command".data, "get_azure_context".data]

inductive PermissionDecision where
  | allow
  | ask
deriving DecidableEq, Repr

/-- Decision logic of `on_pre_tool_use`:
`if tool_name not in OUR_TOOLS: allow`;
for `run_command`, `ask` iff some destructive keyword is a substring of the
lower-cased command; otherwise `allow`. -/
def onPreToolUse (toolName command : List Char) : PermissionDecision :=
  if OUR_TOOLS.contains toolName = false then .allow
  else if toolName = "run_command".data then
    if DESTRUCTIVE_KEYWORDS.any (fun kw => isSubstr kw (lowerStr command)) then .ask
    else .allow
  else .allow

def hasDestructiveKeyword (command : List Char) : Bool :=
  DESTRUCTIVE_KEYWORDS.any (fun kw => isSubstr kw (lowerStr command))

/-! ## Mention grammar (`mentions.py`)

`MENTION_PATTERNS` is an ordered list of `(regex, resolver)` pairs.  The two
regex shapes used are a literal followed by a word boundary (`@sub\b`) and a
literal followed by a captured maximal run of non-whitespace
(`@rg:(\S+)` etc.).  `matchAt` tries a pattern at the head of the text and
returns `(group0, group1, rest-of-text)`; `findIter` is `re.finditer`:
left-to-right, non-overlapping. -/

inductive Pat where
  | litWordB (lit : List Char)
  | capGroup (pre : List Char)
deriving DecidableEq, Repr

def matchAt : Pat → List Char → Option (List Char × Option (List Char) × List Char)
  | .litWordB lit, cs =>
    if lit.isPrefixOf cs then
      match cs.drop lit.length with
      | [] => some (lit, none, [])
      | c :: rest => if isWordChar c then none else some (lit, none, c :: rest)
    else none
  | .capGroup pre, cs =>
    if pre.isPrefixOf cs then
      let rest0 := cs.drop pre.length
      let grp := rest0.takeWhile (fun c => isPySpace c = false)
      if grp.isEmpty then none
      else some (pre ++ grp, some grp, rest0.drop grp.length)
    else none

/-- `re.finditer` on the patterns above.  Fuel-indexed structural recursion;
every pattern used below starts with a nonempty literal, so each match
consumes at least one character and `fuel = cs.length` always suffices. -/
def findIterFuel (p : Pat) : Nat → List Char → List (List Char × Option (List Char))
  | 0, _ => []
  | _ + 1, [] => []
  | fuel + 1, c :: cs =>
    match matchAt p (c :: cs) with
    | some (g0, g1, rest) => (g0, g1) :: findIterFuel p fuel rest
    | none => findIterFuel p fuel cs

def findIter (p : Pat) (cs : List Char) : List (List Char × Option (List Char)) :=
  findIterFuel p cs.length cs

inductive MKind where
  | sub
  | rg
  | vm
  | aks
  | file
deriving DecidableEq, Repr

/-- The regex of each `MENTION_PATTERNS` entry, in source order. -/
def patOf : MKind → Pat
  | .sub => .litWordB "@sub".data
  | .rg => .capGroup "@rg:".data
  | .vm => .capGroup "@vm:".data
  | .aks => .capGroup "@aks:".data
  | .file => .capGroup "@file:".data

def MENTION_KINDS : List MKind := [.sub, .rg, .vm, .aks, .file]

/-! ## `resolve_mentions` (`mentions.py`)

Each resolver performs external effects (az subprocess, environment, file
system); a resolver invocation is modelled as an `Oracle` answering, for a
match of a given kind, either with the `(context, replacement)` pair the
resolver returned, or with `timedOut` for the one exception
(`subprocess.TimeoutExpired`) that `resolve_mentions` itself catches. -/

inductive ROutcome where
  | res (ctx repl : List Char)
  | timedOut
deriving DecidableEq, Repr

def Oracle : Type := MKind → List Char → Option (List Char) → ROutcome

def AZ_TIMEOUT : Nat := 10

/-- The inline diagnostic `resolve_mentions` synthesizes when a resolver
raises `subprocess.TimeoutExpired`. -/
def timeoutBlock (g0 : List Char) : List Char :=
  "[Could not resolve ".data ++ g0 ++ ": timed out after ".data
    ++ (toString AZ_TIMEOUT).data ++ "s]".data

def outcomePair (o : Oracle) (k : MKind) (g0 : List Char) (g1 : Option (List Char)) :
    List Char × List Char :=
  match o k g0 g1 with
  | .res ctx repl => (ctx, repl)
  | .timedOut => (timeoutBlock g0, g0)

/-- Python `cleaned.replace(old, new, 1)`: first-occurrence substitution. -/
def replaceFirst (cs old new : List Char) : List Char :=
  match cs with
  | [] => []
  | c :: rest =>
    if old.isPrefixOf (c :: rest) then new ++ (c :: rest).drop old.length
    else c :: replaceFirst rest old new

/-- Inner loop of `resolve_mentions`: for the matches of one pattern
(computed on the text as it was when `re.finditer` was called), append one
context block per match and substitute its replacement into the working
text. -/
def applyMatches (o : Oracle) (k : MKind) :
    List (List Char × Option (List Char)) → List Char → List (List Char) × List Char
  | [], cleaned => ([], cleaned)
  | (g0, g1) :: ms, cleaned =>
    let p := outcomePair o k g0 g1
    let next := applyMatches o k ms (replaceFirst cleaned g0 p.2)
    (p.1 :: next.1, next.2)

def runPattern (o : Oracle) (k : MKind) (cleaned : List Char) :
    List (List Char) × List Char :=
  applyMatches o k (findIter (patOf k) cleaned) cleaned

/-- Outer loop of `resolve_mentions` over `MENTION_PATTERNS`, accumulating
context blocks in match order and threading the working text. -/
def runAll (o : Oracle) : List MKind → List Char → List (List Char) × List Char
  | [], cleaned => ([], cleaned)
  | k :: ks, cleaned =>
    let r1 := runPattern o k cleaned
    let r2 := runAll o ks r1.2
    (r1.1 ++ r2.1, r2.2)

/-- Helper for `squeezeSpaces`; the flag records whether the previous
character was a space already emitted, so further spaces of the same run
are dropped. -/
def squeezeAux : Bool → List Char → List Char
  | _, [] => []
  | prevSpace, c :: rest =>
    if c = ' ' then
      if prevSpace then squeezeAux true rest
      else ' ' :: squeezeAux true rest
    else c :: squeezeAux false rest

/-- `re.sub(r"  +", " ", cleaned)`: collapse runs of two or more spaces to a
single space (a run of one space is already a single space, so collapsing
every maximal run is the same function). -/
def squeezeSpaces (cs : List Char) : List Char := squeezeAux false cs

/-- `resolve_mentions`: run every pattern, clean up whitespace, and either
return the input unchanged (no mention found) or prepend the joined context
blocks and the `User question:` label. -/
def resolveMentions (o : Oracle) (userInput : List Char) : List Char :=
  let r := runAll o MENTION_KINDS userInput
  let cleaned := stripStr (squeezeSpaces r.2)
  if r.1.isEmpty then userInput
  else List.intercalate "\n\n".data r.1 ++ "\n\nUser question: ".data ++ cleaned

/-- The number of matched tokens across the pipeline: for each pattern in
order, the matches `re.finditer` finds on the working text at that point. -/
def countAll (o : Oracle) : List MKind → List Char → Nat
  | [], _ => 0
  | k :: ks, cleaned =>
    (findIter (patOf k) cleaned).length + countAll o ks (runPattern o k cleaned).2

/-- No pattern of the mention grammar matches anywhere in the text. -/
def noMentionTokens (cs : List Char) : Bool :=
  MENTION_KINDS.all fun k => (findIter (patOf k) cs).isEmpty

def firstLine (cs : List Char) : List Char :=
  cs.takeWhile (fun c => c ≠ '\n')

/-! ## The `_run_az` adapter of `mentions.py`

`_run_az` runs `["az"] + args + ["--output", "json"]` and returns
`json.loads(stdout)`.  `AzCall` is the observable outcome at the boundary:
`ok` for a normal return carrying the parsed value, `raised` for a Python
exception propagating to the caller.  The subprocess result and the
parsability of stdout are parameters of the model; `parsed = none` stands
for `json.loads` raising `json.JSONDecodeError`. -/

inductive AzCall (α : Type) where
  | ok (v : α)
  | raised (msg : List Char)
deriving DecidableEq, Repr

structure ProcResult where
  returncode : Int
  stdout : List Char
  stderr : List Char
deriving DecidableEq, Repr

def azCmdLine (args : List (List Char)) : List Char :=
  List.intercalate " ".data (["az".data] ++ args ++ ["--output".data, "json".data])

/-- `_run_az` (mentions.py): on non-zero exit it raises
`RuntimeError(result.stderr.strip() or f"az command failed: {cmd}")`; on
exit 0 it returns `json.loads(result.stdout)`, which raises on malformed
output. -/
def runAzModel (α : Type) (args : List (List Char)) (res : ProcResult)
    (parsed : Option α) : AzCall α :=
  if res.returncode ≠ 0 then
    .raised (if (stripStr res.stderr).isEmpty then
               "az command failed: ".data ++ azCmdLine args
             else stripStr res.stderr)
  else
    match parsed with
    | some v => .ok v
    | none => .raised "JSONDecodeError".data

def isOkCall (α : Type) : AzCall α → Bool
  | .ok _ => true
  | .raised _ => false

/-! ## `_resolve_vm` and `_resolve_aks` (`mentions.py`)

The parsed JSON values are modelled as structures whose fields are
`Option`s, mirroring the `dict.get(key, default)` chains in the source.
Each resolver takes the outcome of its `_run_az` call as a parameter; its
own `except Exception` clause corresponds to the `raised` case. -/

structure AksPool where
  name : Option (List Char) := none
  count : Option Nat := none
  vmSize : Option (List Char) := none
deriving DecidableEq, Repr

structure AksCluster where
  kubernetesVersion : Option (List Char) := none
  fqdn : Option (List Char) := none
  provisioningState : Option (List Char) := none
  agentPoolProfiles : Option (List AksPool) := none
deriving DecidableEq, Repr

def poolLine (p : AksPool) : List Char :=
  "  - ".data ++ p.name.getD "?".data ++ ": ".data
    ++ (match p.count with
        | some n => (toString n).data
        | none => "?".data)
    ++ " nodes (".data ++ p.vmSize.getD "?".data ++ ")".data

def aksContextBlock (name : List Char) (c : AksCluster) : List Char :=
  "[Azure Context: AKS Cluster '".data ++ name ++ "']\n".data
    ++ "Version: ".data ++ c.kubernetesVersion.getD "unknown".data
    ++ ", FQDN: ".data ++ c.fqdn.getD "unknown".data
    ++ ", Provisioning: ".data ++ c.provisioningState.getD "unknown".data
    ++ "\nNode Pools:\n".data
    ++ (match c.agentPoolProfiles.getD [] with
        | [] => "  (none)".data
        | pools => List.intercalate "\n".data (pools.map poolLine))

/-- `_resolve_aks`: empty query result is the `cluster not found` diagnostic;
an exception from `_run_az` becomes a `Could not resolve` diagnostic; on
success the context block plus the replacement label `AKS cluster '<name>'`. -/
def resolveAks (az : AzCall (List AksCluster)) (name : List Char) :
    List Char × List Char :=
  match az with
  | .raised e =>
    ("[Could not resolve @aks:".data ++ name ++ ": ".data ++ e ++ "]".data,
     "@aks:".data ++ name)
  | .ok [] =>
    ("[Could not resolve @aks:".data ++ name ++ ": cluster not found]".data,
     "@aks:".data ++ name)
  | .ok (c :: _) =>
    (aksContextBlock name c, "AKS cluster '".data ++ name ++ "'".data)

structure HardwareProfile where
  vmSize : Option (List Char) := none
deriving DecidableEq, Repr

structure OsDisk where
  osType : Option (List Char) := none
deriving DecidableEq, Repr

structure StorageProfile where
  osDisk : Option OsDisk := none
deriving DecidableEq, Repr

structure VmInfo where
  hardwareProfile : Option HardwareProfile := none
  powerState : Option (List Char) := none
  storageProfile : Option StorageProfile := none
  publicIps : Option (List Char) := none
  privateIps : Option (List Char) := none
  location : Option (List Char) := none
  resourceGroup : Option (List Char) := none
deriving DecidableEq, Repr

/-- `vm.get("publicIps", "none") or "none"`: a missing or empty value
renders as `none`. -/
def ipDisplay : Option (List Char) → List Char
  | none => "none".data
  | some s => if s.isEmpty then "none".data else s

def vmContextBlock (name : List Char) (vm : VmInfo) : List Char :=
  "[Azure Context: VM '".data ++ name ++ "']\n".data
    ++ "Resource Group: ".data ++ vm.resourceGroup.getD "unknown".data
    ++ ", Location: ".data ++ vm.location.getD "unknown".data
    ++ "\nSize: ".data ++ ((vm.hardwareProfile.getD {}).vmSize).getD "unknown".data
    ++ ", OS: ".data
    ++ (((vm.storageProfile.getD {}).osDisk.getD {}).osType).getD "unknown".data
    ++ ", Power State: ".data ++ vm.powerState.getD "unknown".data
    ++ "\nPublic IP: ".data ++ ipDisplay vm.publicIps
    ++ ", Private IP: ".data ++ ipDisplay vm.privateIps

/-- `_resolve_vm`: same shape as `_resolve_aks`, with the `VM not found`
diagnostic for an empty query result. -/
def resolveVm (az : AzCall (List VmInfo)) (name : List Char) :
    List Char × List Char :=
  match az with
  | .raised e =>
    ("[Could not resolve @vm:".data ++ name ++ ": ".data ++ e ++ "]".data,
     "@vm:".data ++ name)
  | .ok [] =>
    ("[Could not resolve @vm:".data ++ name ++ ": VM not found]".data,
     "@vm:".data ++ name)
  | .ok (vm :: _) =>
    (vmContextBlock name vm, "VM '".data ++ name ++ "'".data)

/-- A backend environment: the parsed outcomes of the az queries issued by
`_resolve_vm` and `_resolve_aks` for a given captured name. -/
structure AzBackend where
  vmList : List Char → AzCall (List VmInfo)
  aksList : List Char → AzCall (List AksCluster)

/-- The oracle realized by the source resolvers for the `@vm:`/`@aks:`
kinds over a backend environment; the remaining kinds (whose resolvers the
claims do not inspect) are delegated to `other`. -/
def backendOracle (b : AzBackend) (other : Oracle) : Oracle :=
  fun k g0 g1 =>
    match k, g1 with
    | .vm, some n => ROutcome.res (resolveVm (b.vmList n) n).1 (resolveVm (b.vmList n) n).2
    | .aks, some n => ROutcome.res (resolveAks (b.aksList n) n).1 (resolveAks (b.aksList n) n).2
    | _, _ => other k g0 g1

/-! ## Resource cache completions (`resource_cache.py`) -/

structure CachedResource where
  name : Option (List Char) := none
  rtype : Option (List Char) := none
  location : Option (List Char) := none
deriving DecidableEq, Repr

/-- `_short_resource_type`'s static abbreviation table. -/
def SHORT_TYPE_TABLE : List (List Char × List Char) :=
  [("microsoft.compute/virtualmachines".data, "vm".data),
   ("microsoft.containerservice/managedclusters".data, "aks".data),
   ("microsoft.storage/storageaccounts".data, "storage".data),
   ("microsoft.web/sites".data, "webapp".data),
   ("microsoft.sql/servers".data, "sql".data),
   ("microsoft.network/virtualnetworks".data, "vnet".data),
   ("microsoft.network/networksecuritygroups".data, "nsg".data),
   ("microsoft.network/publicipaddresses".data, "pip".data),
   ("microsoft.network/loadbalancers".data, "lb".data),
   ("microsoft.keyvault/vaults".data, "kv".data),
   ("microsoft.containerregistry/registries".data, "acr".data),
   ("microsoft.dbforpostgresql/flexibleservers".data, "pg".data),
   ("microsoft.dbformysql/flexibleservers".data, "mysql".data),
   ("microsoft.insights/components".data, "appinsights".data),
   ("microsoft.operationalinsights/workspaces".data, "loganalytics".data)]

/-- `_short_resource_type`: `mapping.get(full_type.lower(), "")`. -/
def shortResourceType (fullType : List Char) : List Char :=
  match SHORT_TYPE_TABLE.lookup (lowerStr fullType) with
  | some s => s
  | none => []

/-- One `(mention, description)` pair of `get_resource_completions`:
`f"@{short_type}:{name}" if short_type else f"@{name}"`. -/
def resourceCompletion (r : CachedResource) : List Char × List Char :=
  let name := r.name.getD []
  let rtype := r.rtype.getD []
  let location := r.location.getD []
  let shortType := shortResourceType rtype
  (if shortType.isEmpty then "@".data ++ name
   else "@".data ++ shortType ++ ":".data ++ name,
   rtype ++ " (".data ++ location ++ ")".data)

def getResourceCompletions (cached : List CachedResource) :
    List (List Char × List Char) :=
  cached.map resourceCompletion

/-! ## Active-scope cache state machine (`resource_cache.py`)

The module globals `_active_rg`, `_cached_resources`, `_fetch_task` form
the state.  `set_active_rg` runs with no `await` before its last statement,
so on the single-threaded event loop it is one atomic step: it sets the
scope, clears the cache, cancels the in-flight task if not done, and
creates a fresh task.  A cancelled task receives `CancelledError` at the
`await` inside `_do_fetch` (the resolver's `except` clauses do not catch
`CancelledError`), so the assignment to `_cached_resources` never runs for
a cancelled or superseded task; once a task's assignment has run, the task
finishes in the same event-loop slice.  `fetchTask = none` therefore covers
both "no task" and "task done", which `set_active_rg` treats identically
(`if _fetch_task and not _fetch_task.done()`).  `completeFetch tid` is the
event-loop step in which task `tid` resumes from its await and performs the
assignment; it is a no-op for every task that is no longer the current one. -/

structure FetchTask where
  id : Nat
  rg : List Char
deriving DecidableEq, Repr

structure CacheState where
  activeRg : Option (List Char)
  cachedResources : List CachedResource
  fetchTask : Option FetchTask
  nextTaskId : Nat
deriving DecidableEq, Repr

def initialCache : CacheState :=
  { activeRg := none, cachedResources := [], fetchTask := none, nextTaskId := 0 }

/-- `set_active_rg`: set the scope, clear the cached list, cancel any
in-flight fetch, start a new fetch task for the new scope. -/
def setActiveRg (s : CacheState) (rgName : List Char) : CacheState :=
  { activeRg := some rgName,
    cachedResources := [],
    fetchTask := some { id := s.nextTaskId, rg := rgName },
    nextTaskId := s.nextTaskId + 1 }

/-- The event-loop step completing fetch task `tid` with the backend result
for its resource group (`fetchOf` is `_fetch_resources`, which returns `[]`
on any failure).  Only the current, uncancelled task can still perform the
assignment `_cached_resources = await _fetch_resources(rg_name)`. -/
def completeFetch (fetchOf : List Char → List CachedResource) (s : CacheState)
    (tid : Nat) : CacheState :=
  match s.fetchTask with
  | some t =>
    if t.id = tid then
      { s with cachedResources := fetchOf t.rg, fetchTask := none }
    else s
  | none => s

inductive CacheEv where
  | setScope (rg : List Char)
  | fetchDone (tid : Nat)
deriving DecidableEq, Repr

def cacheStep (fetchOf : List Char → List CachedResource) (s : CacheState) :
    CacheEv → CacheState
  | .setScope rg => setActiveRg s rg
  | .fetchDone tid => completeFetch fetchOf s tid

def cacheRun (fetchOf : List Char → List CachedResource) (s : CacheState)
    (evs : List CacheEv) : CacheState :=
  evs.foldl (cacheStep fetchOf) s

def isFetchDone : CacheEv → Bool
  | .fetchDone _ => true
  | .setScope _ => false

/-- Invariant after `setScope B`: the cached list is empty or exactly `B`'s
fetch result, and any pending task fetches for `B`. -/
def scopeInv (fetchOf : List Char → List CachedResource) (B : List Char)
    (s : CacheState) : Prop :=
  (s.cachedResources = [] ∨ s.cachedResources = fetchOf B) ∧
  (∀ t, s.fetchTask = some t → t.rg = B)

/-! ## Slash commands (`commands.py`) and the REPL turn (`repl.py`)

`handle_command` strips the input, returns `None` for non-slash input,
splits off the first token, lower-cases it, looks it up in the fixed
`handlers` table and runs the handler; an unknown slash command prints an
error and returns `"handled"`.  Handlers are modelled by their control
flow: console rendering is dropped, and the subprocess calls become
environment parameters.  `Except.error` models a Python exception
propagating out of the function. -/

inductive Sentinel where
  | handled
  | clear
  | exit
deriving DecidableEq, Repr

/-- Outcome of a `subprocess.run` call with a timeout: either the completed
process or a raised `subprocess.TimeoutExpired`. -/
inductive SubprocOutcome where
  | completed (returncode : Int) (stdout stderr : List Char)
  | timedOut (e : List Char)
deriving DecidableEq, Repr

/-- Environment for `_handle_sub`: the result of
`az account set --subscription <arg>`. -/
structure CommandEnv where
  accountSet : List Char → SubprocOutcome

/-- `_handle_sub`: with an argument it runs `az account set` directly via
`subprocess.run(..., timeout=30)` — a `TimeoutExpired` there is not caught
and propagates; both the success and failure prints return `"handled"`.
Without an argument it lists subscriptions through `commands._run_az`,
which swallows timeouts and parse errors (returning `None`), so that
branch always returns `"handled"`. -/
def handleSubModel (env : CommandEnv) (arg : Option (List Char)) :
    Except (List Char) Sentinel :=
  match arg with
  | some a =>
    match env.accountSet a with
    | .completed _ _ _ => .ok .handled
    | .timedOut e => .error e
  | none => .ok .handled

inductive HKey where
  | hsub
  | henv
  | hhelp
  | hclear
  | hexit
deriving DecidableEq, Repr

/-- The `handlers` dict of `handle_command`, in source order. -/
def HANDLERS : List (List Char × HKey) :=
  [("/sub".data, .hsub), ("/env".data, .henv), ("/help".data, .hhelp),
   ("/clear".data, .hclear), ("/exit".data, .hexit), ("/quit".data, .hexit)]

/-- `_handle_env` and `_handle_help` always return `"handled"` (their
subprocess use goes through the swallowing `commands._run_az`);
`_handle_clear` returns `"clear"`; `_handle_exit` returns `"exit"`. -/
def runHandler (env : CommandEnv) (k : HKey) (arg : Option (List Char)) :
    Except (List Char) Sentinel :=
  match k with
  | .hsub => handleSubModel env arg
  | .henv => .ok .handled
  | .hhelp => .ok .handled
  | .hclear => .ok .clear
  | .hexit => .ok .exit

/-- `stripped.split(maxsplit=1)` on an already-stripped string: the first
whitespace-delimited token and the remainder (or `None`). -/
def splitMax1 (cs : List Char) : List Char × Option (List Char) :=
  let first := cs.takeWhile (fun c => isPySpace c = false)
  let rest := (cs.drop first.length).dropWhile isPySpace
  (first, if rest.isEmpty then none else some rest)

/-- `handle_command`: `None` for non-slash input; otherwise dispatch through
`HANDLERS`, with unknown commands reporting an error and returning
`"handled"`. -/
def handleCommand (env : CommandEnv) (command : List Char) :
    Except (List Char) (Option Sentinel) :=
  if ("/".data).isPrefixOf (stripStr command) = false then .ok none
  else
    match HANDLERS.lookup (lowerStr (splitMax1 (stripStr command)).1) with
    | none => .ok (some .handled)
    | some k => (runHandler env k (splitMax1 (stripStr command)).2).map some

/-- `SLASH_COMMANDS` from `repl.py`: the completion table advertised to the
user (command, description). -/
def SLASH_COMMANDS : List (List Char × List Char) :=
  [("/sub".data, "Show/switch Azure subscription".data),
   ("/rg".data, "Set working resource group".data),
   ("/help".data, "Show available commands and @ mentions".data),
   ("/clear".data, "Clear the screen".data),
   ("/exit".data, "Exit azsh".data),
   ("/quit".data, "Exit azsh".data)]

/-! ### One REPL turn (`run_repl`'s `while` body)

The body calls `handle_command` and `resolve_mentions` with no enclosing
`try`; only `session.send_and_wait` sits inside a
`try/except asyncio.TimeoutError/except Exception`.  The surrounding
`try` of `run_repl` catches only `KeyboardInterrupt`, so an exception
escaping the body ends the loop and the session. -/

inductive SendResult where
  | ok
  | timedOut
  | failed (e : List Char)
deriving DecidableEq, Repr

inductive TurnOutcome where
  | breakLoop
  | continueLoop
  | raised (e : List Char)
deriving DecidableEq, Repr

structure TurnTrace where
  outcome : TurnOutcome
  mentionsReached : Bool
  agentReached : Bool
deriving DecidableEq, Repr

/-- One iteration of the REPL `while` body, as a function of the outcome of
`handle_command`, of `resolve_mentions`, and of `session.send_and_wait`.
The two `Bool`s of the trace record whether mention resolution and agent
submission were reached on this turn. -/
def replTurn (hc : Except (List Char) (Option Sentinel))
    (rm : Except (List Char) (List Char)) (send : SendResult) : TurnTrace :=
  match hc with
  | .error e => { outcome := .raised e, mentionsReached := false, agentReached := false }
  | .ok (some .exit) => { outcome := .breakLoop, mentionsReached := false, agentReached := false }
  | .ok (some .clear) => { outcome := .continueLoop, mentionsReached := false, agentReached := false }
  | .ok (some .handled) => { outcome := .continueLoop, mentionsReached := false, agentReached := false }
  | .ok none =>
    match rm with
    | .error e => { outcome := .raised e, mentionsReached := true, agentReached := false }
    | .ok _ =>
      match send with
      | .ok => { outcome := .continueLoop, mentionsReached := true, agentReached := true }
      | .timedOut => { outcome := .continueLoop, mentionsReached := true, agentReached := true }
      | .failed _ => { outcome := .continueLoop, mentionsReached := true, agentReached := true }

/-- Whether the session survives the turn and reads the next prompt. -/
def sessionContinues (t : TurnTrace) : Bool :=
  match t.outcome with
  | .continueLoop => true
  | .breakLoop => false
  | .raised _ => false

/-! ## Concrete fixtures used in closed statements -/

/-- An oracle that echoes the token back as its own replacement. -/
def idleOracle : Oracle := fun _ g0 _ => .res "[ctx]".data g0

/-- An oracle replacing every token by the token-free label `X`. -/
def labelOracle : Oracle := fun _ _ _ => .res "[ctx]".data "X".data

/-- A backend on which every az lookup succeeds with an empty result list
(every named resource is absent). -/
def emptyBackend : AzBackend :=
  { vmList := fun _ => .ok [], aksList := fun _ => .ok [] }

def c8Cluster : AksCluster :=
  { kubernetesVersion := some "1.29.2".data,
    fqdn := some "prod-k8s.hcp.eastus.azmk8s.io".data,
    provisioningState := some "Succeeded".data,
    agentPoolProfiles := some
      [{ name := some "nodepool1".data, count := some 3,
         vmSize := some "Standard_DS2_v2".data }] }

/-- A backend with one AKS cluster named `prod`. -/
def c8Backend : AzBackend :=
  { vmList := fun _ => .ok [],
    aksList := fun n => if n = "prod".data then .ok [c8Cluster] else .ok [] }

def storageRes : CachedResource :=
  { name := some "foo".data,
    rtype := some "Microsoft.Storage/storageAccounts".data,
    location := some "eastus".data }

/-- Environment where `az account set` raises `subprocess.TimeoutExpired`. -/
def timeoutEnv : CommandEnv :=
  { accountSet := fun _ => .timedOut "subprocess.TimeoutExpired".data }

/-- Environment where `az account set` completes normally. -/
def anyEnv : CommandEnv :=
  { accountSet := fun _ => .completed 0 [] [] }

/-- A deterministic backend for the scope-cache fixtures. -/
def fetchAB : List Char → List CachedResource := fun rg =>
  if rg = "B".data then [{ name := some "bstore".data }]
  else [{ name := some "avm".data }]

/-! ## Helper lemmas -/

theorem onPreToolUse_run_command_ask (command : List Char)
    (h : hasDestructiveKeyword command = true) :
    onPreToolUse "run_command".data command = .ask := by
  unfold hasDestructiveKeyword at h
  unfold onPreToolUse
  rw [if_neg (by decide : ¬ (OUR_TOOLS.contains "run_command".data = false)),
      if_pos rfl, if_pos h]

theorem onPreToolUse_run_command_allow (command : List Char)
    (h : hasDestructiveKeyword command = false) :
    onPreToolUse "run_command".data command = .allow := by
  unfold hasDestructiveKeyword at h
  unfold onPreToolUse
  rw [if_neg (by decide : ¬ (OUR_TOOLS.contains "run_command".data = false)),
      if_pos rfl, if_neg (by simp [h])]

theorem onPreToolUse_other_allow (toolName command : List Char)
    (h : OUR_TOOLS.contains toolName = false) :
    onPreToolUse toolName command = .allow := by
  unfold onPreToolUse
  rw [if_pos h]

theorem scopeInv_step (fetchOf : List Char → List CachedResource) (B : List Char)
    (s : CacheState) (ev : CacheEv) (hev : isFetchDone ev = true)
    (h : scopeInv fetchOf B s) : scopeInv fetchOf B (cacheStep fetchOf s ev) := by
  obtain ⟨hc, ht⟩ := h
  cases ev with
  | setScope rg => simp [isFetchDone] at hev
  | fetchDone tid =>
    simp only [cacheStep, completeFetch]
    cases hft : s.fetchTask with
    | none => exact ⟨hc, ht⟩
    | some t =>
      dsimp only
      by_cases hid : t.id = tid
      · rw [if_pos hid]
        exact ⟨Or.inr (congrArg fetchOf (ht t hft)), fun u hu => Option.noConfusion hu⟩
      · rw [if_neg hid]
        exact ⟨hc, ht⟩

theorem scopeInv_run (fetchOf : List Char → List CachedResource) (B : List Char)
    (evs : List CacheEv) (hev : evs.all isFetchDone = true)
    (s : CacheState) (h : scopeInv fetchOf B s) :
    scopeInv fetchOf B (cacheRun fetchOf s evs) := by
  induction evs generalizing s with
  | nil => exact h
  | cons e es ih =>
    simp only [List.all_cons, Bool.and_eq_true] at hev
    exact ih hev.2 _ (scopeInv_step fetchOf B s e hev.1 h)

theorem applyMatches_length (o : Oracle) (k : MKind)
    (ms : List (List Char × Option (List Char))) (cleaned : List Char) :
    (applyMatches o k ms cleaned).1.length = ms.length := by
  induction ms generalizing cleaned with
  | nil => rfl
  | cons m ms ih =>
    obtain ⟨g0, g1⟩ := m
    simp only [applyMatches, List.length_cons, ih]

theorem runAll_length (o : Oracle) (ks : List MKind) (cleaned : List Char) :
    (runAll o ks cleaned).1.length = countAll o ks cleaned := by
  induction ks generalizing cleaned with
  | nil => rfl
  | cons k ks ih =>
    simp only [runAll, countAll, List.length_append, ih, runPattern, applyMatches_length]

theorem runAll_of_no_matches (o : Oracle) (ks : List MKind) (cleaned : List Char)
    (h : ∀ k ∈ ks, findIter (patOf k) cleaned = []) :
    runAll o ks cleaned = ([], cleaned) := by
  induction ks with
  | nil => rfl
  | cons k ks ih =>
    have hk : findIter (patOf k) cleaned = [] := h k (by simp)
    have hrp : runPattern o k cleaned = ([], cleaned) := by
      unfold runPattern
      rw [hk]
      rfl
    have hrest := ih (fun k2 hk2 => h k2 (by simp [hk2]))
    simp only [runAll, hrp, hrest, List.nil_append]

theorem handleCommand_slash_cases (env : CommandEnv) (input : List Char)
    (h : ("/".data).isPrefixOf (stripStr input) = true) :
    (∃ e, handleCommand env input = .error e) ∨
    (∃ s, handleCommand env input = .ok (some s)) := by
  unfold handleCommand
  rw [h, if_neg (by simp)]
  cases hl : HANDLERS.lookup (lowerStr (splitMax1 (stripStr input)).1) with
  | none => exact Or.inr ⟨.handled, rfl⟩
  | some k =>
    cases hr : runHandler env k (splitMax1 (stripStr input)).2 with
    | error e =>
      refine Or.inl ⟨e, ?_⟩
      dsimp only
      rw [hr]
      rfl
    | ok s =>
      refine Or.inr ⟨s, ?_⟩
      dsimp only
      rw [hr]
      rfl

/-! ## Claim theorems -/

/-- C1: for `run_command`, a destructive-keyword match yields `ask` and a
keyword-free command yields `allow`; any tool outside
`{run_command, get_azure_context}` is allowed unconditionally; and a
keyword-matched command is never answered with `allow`. -/
theorem destructive_gate (toolName command : List Char) :
    (hasDestructiveKeyword command = true →
      onPreToolUse "run_command".data command = .ask) ∧
    (hasDestructiveKeyword command = false →
      onPreToolUse "run_command".data command = .allow) ∧
    (OUR_TOOLS.contains toolName = false →
      onPreToolUse toolName command = .allow) ∧
    (hasDestructiveKeyword command = true →
      onPreToolUse "run_command".data command ≠ .allow) := by
  refine ⟨onPreToolUse_run_command_ask command,
          onPreToolUse_run_command_allow command,
          fun h => onPreToolUse_other_allow toolName command h,
          fun h => ?_⟩
  rw [onPreToolUse_run_command_ask command h]
  intro hc
  exact PermissionDecision.noConfusion hc

/-- C1 witness: `rm -rf` escalates to `ask`, `az group list` is allowed, and
a tool outside the safety-relevant set is allowed unconditionally. -/
theorem destructive_gate_witness :
    onPreToolUse "run_command".data "sudo rm -rf /tmp/x".data = .ask ∧
    onPreToolUse "run_command".data "az group list".data = .allow ∧
    onPreToolUse "report_progress".data "kubectl delete pod x".data = .allow :=
  ⟨(destructive_gate "run_command".data "sudo rm -rf /tmp/x".data).1 (by decide),
   (destructive_gate "run_command".data "az group list".data).2.1 (by decide),
   (destructive_gate "report_progress".data "kubectl delete pod x".data).2.2.1 (by decide)⟩

/-- C2: `setScope A` then `setScope B` before A's refresh completes:
both calls synchronously empty the cached list; after the second call the
only pending fetch task is B's (A's is cancelled — its completion event is
a no-op); over any further fetch-completion events the cached list, hence
`getCompletions`, is always empty or exactly B's fetch result, never A's
and never a mix; and B's completion event installs B's full list. -/
theorem scope_replacement_atomic (fetchOf : List Char → List CachedResource)
    (s : CacheState) (A B : List Char) (evs : List CacheEv)
    (hev : evs.all isFetchDone = true) :
    (setActiveRg s A).cachedResources = [] ∧
    (setActiveRg (setActiveRg s A) B).cachedResources = [] ∧
    (setActiveRg (setActiveRg s A) B).fetchTask
      = some { id := s.nextTaskId + 1, rg := B } ∧
    completeFetch fetchOf (setActiveRg (setActiveRg s A) B) s.nextTaskId
      = setActiveRg (setActiveRg s A) B ∧
    ((cacheRun fetchOf (setActiveRg (setActiveRg s A) B) evs).cachedResources = [] ∨
     (cacheRun fetchOf (setActiveRg (setActiveRg s A) B) evs).cachedResources
       = fetchOf B) ∧
    (getResourceCompletions
        (cacheRun fetchOf (setActiveRg (setActiveRg s A) B) evs).cachedResources
        = getResourceCompletions [] ∨
     getResourceCompletions
        (cacheRun fetchOf (setActiveRg (setActiveRg s A) B) evs).cachedResources
        = getResourceCompletions (fetchOf B)) ∧
    (completeFetch fetchOf (setActiveRg (setActiveRg s A) B)
        (s.nextTaskId + 1)).cachedResources = fetchOf B := by
  have hinv : scopeInv fetchOf B (setActiveRg (setActiveRg s A) B) :=
    ⟨Or.inl rfl, fun t ht => by cases ht; rfl⟩
  have hrun := scopeInv_run fetchOf B evs hev _ hinv
  refine ⟨rfl, rfl, rfl, ?_, hrun.1, ?_, ?_⟩
  · unfold completeFetch setActiveRg
    dsimp only
    rw [if_neg (by omega : ¬ (s.nextTaskId + 1 = s.nextTaskId))]
  · exact hrun.1.imp (fun h2 => by rw [h2]) (fun h2 => by rw [h2])
  · unfold completeFetch setActiveRg
    dsimp only
    rw [if_pos rfl]

/-- C2 witness: with a concrete backend, concrete scopes `A` and `B` and
two completion events (the cancelled task's and the live task's), the
cached list read by `getCompletions` ends as exactly B's resources. -/
theorem scope_replacement_atomic_witness :
    ([CacheEv.fetchDone 0, CacheEv.fetchDone 1].all isFetchDone = true) ∧
    ((cacheRun fetchAB (setActiveRg (setActiveRg initialCache "A".data) "B".data)
        [CacheEv.fetchDone 0, CacheEv.fetchDone 1]).cachedResources = [] ∨
     (cacheRun fetchAB (setActiveRg (setActiveRg initialCache "A".data) "B".data)
        [CacheEv.fetchDone 0, CacheEv.fetchDone 1]).cachedResources
       = fetchAB "B".data) :=
  ⟨by decide,
   (scope_replacement_atomic fetchAB initialCache "A".data "B".data
      [CacheEv.fetchDone 0, CacheEv.fetchDone 1] (by decide)).2.2.2.2.1⟩

/-- C3 counterexample: the claim "the cleaned question text in the returned
prompt contains zero occurrences of the original raw token syntax" is false
when a resolver fails: for `check @vm:foo` with the VM absent, the failure
replacement is the token itself, so the returned prompt's question text
still contains `@vm:foo`. -/
theorem cleaned_text_keeps_failed_token :
    resolveMentions (backendOracle emptyBackend idleOracle) "check @vm:foo".data
      = "[Could not resolve @vm:foo: VM not found]\n\nUser question: check @vm:foo".data ∧
    isSubstr "@vm:foo".data
      (stripStr (squeezeSpaces
        (runAll (backendOracle emptyBackend idleOracle) MENTION_KINDS
          "check @vm:foo".data).2)) = true :=
  ⟨by decide, by decide⟩

/-- C3 (amended): for every input and resolver behaviour, the number of
context blocks equals the number of matched tokens — a token is never
silently dropped (a failed or timed-out resolution still contributes its
diagnostic block); but the cleaned question text is only token-free for
successfully resolved tokens: a failed token's replacement is the raw token
itself, which remains in the cleaned text, as the concrete failing lookup
shows. -/
theorem mention_blocks_one_per_token :
    (∀ (o : Oracle) (input : List Char),
      (runAll o MENTION_KINDS input).1.length = countAll o MENTION_KINDS input) ∧
    stripStr (squeezeSpaces
      (runAll (backendOracle emptyBackend idleOracle) MENTION_KINDS
        "check @vm:foo".data).2) = "check @vm:foo".data :=
  ⟨fun o input => runAll_length o MENTION_KINDS input, by decide⟩

/-- C4 counterexample: on non-zero exit of the az CLI, `_run_az` does not
return a typed failure value — it raises (`AzCall.raised` models the
`RuntimeError` propagating to the caller), carrying the stripped stderr
text. -/
theorem run_az_raises_on_nonzero_exit :
    runAzModel (List AksCluster) ["aks".data, "list".data]
      { returncode := 1, stdout := [], stderr := " boom \n".data } none
      = .raised "boom".data ∧
    isOkCall (List AksCluster)
      (runAzModel (List AksCluster) ["aks".data, "list".data]
        { returncode := 1, stdout := [], stderr := " boom \n".data } none) = false :=
  ⟨by decide, by decide⟩

/-- C4 (amended): on non-zero exit `_run_az` raises an exception carrying
the stripped stderr (or a generic message naming the command when stderr is
blank), and on malformed output the JSON decode error propagates; each
mention resolver catches the exception and degrades it to a bracketed
`Could not resolve` diagnostic, so the failure text reaches the user but
no exception escapes the resolver layer. -/
theorem run_az_failure_contract (α : Type) (args : List (List Char))
    (res : ProcResult) (parsed : Option α) (e name : List Char)
    (h : res.returncode ≠ 0) :
    runAzModel α args res parsed
      = .raised (if (stripStr res.stderr).isEmpty
                 then "az command failed: ".data ++ azCmdLine args
                 else stripStr res.stderr) ∧
    resolveVm (.raised e) name
      = ("[Could not resolve @vm:".data ++ name ++ ": ".data ++ e ++ "]".data,
         "@vm:".data ++ name) ∧
    resolveAks (.raised e) name
      = ("[Could not resolve @aks:".data ++ name ++ ": ".data ++ e ++ "]".data,
         "@aks:".data ++ name) := by
  refine ⟨?_, rfl, rfl⟩
  unfold runAzModel
  rw [if_pos h]

/-- C4 witness: the failure contract applied at a concrete non-zero exit. -/
theorem run_az_failure_contract_witness :
    ((1 : Int) ≠ 0) ∧
    runAzModel (List VmInfo) ["vm".data, "list".data]
      { returncode := 1, stdout := [], stderr := "denied".data } none
      = .raised (if (stripStr "denied".data).isEmpty
                 then "az command failed: ".data
                   ++ azCmdLine ["vm".data, "list".data]
                 else stripStr "denied".data) :=
  ⟨by decide,
   (run_az_failure_contract (List VmInfo) ["vm".data, "list".data]
      { returncode := 1, stdout := [], stderr := "denied".data } none
      "x".data "y".data (by decide)).1⟩

/-- C5 counterexample: a `subprocess.TimeoutExpired` inside `/sub <name>`
handling is not caught anywhere in the turn: `handle_command` propagates it
and the REPL body has no enclosing handler, so the turn raises and the
session does not continue to the next prompt — contradicting the claim
that no single turn's failure terminates the session. -/
theorem sub_timeout_terminates_session :
    handleCommand timeoutEnv "/sub mysub".data
      = .error "subprocess.TimeoutExpired".data ∧
    (replTurn (handleCommand timeoutEnv "/sub mysub".data)
      (.ok []) .ok).outcome = .raised "subprocess.TimeoutExpired".data ∧
    sessionContinues
      (replTurn (handleCommand timeoutEnv "/sub mysub".data) (.ok []) .ok) = false :=
  ⟨rfl, rfl, rfl⟩

/-- C5 (amended): only the agent-submission stage is exception-contained:
a timeout or any other exception from `session.send_and_wait` is caught and
the loop continues; an exception raised by slash-command dispatch or by
mention resolution propagates out of the loop body and ends the session. -/
theorem turn_exception_containment (resolved e : List Char) (send : SendResult) :
    (replTurn (.ok none) (.ok resolved) send).outcome = .continueLoop ∧
    (replTurn (.error e) (.ok resolved) send).outcome = .raised e ∧
    (replTurn (.ok none) (.error e) send).outcome = .raised e := by
  refine ⟨?_, rfl, rfl⟩
  cases send <;> rfl

/-- C6: the repl's completion table advertises `/rg` ("Set working resource
group"), but the `handlers` dict of `handle_command` has no `/rg` entry, so
`/rg myrg` falls into the unknown-command branch and returns `handled`
without ever reaching `set_active_rg` — the code contradicts its own
declared command table. -/
theorem rg_command_not_dispatched :
    SLASH_COMMANDS.lookup "/rg".data = some "Set working resource group".data ∧
    HANDLERS.lookup "/rg".data = none ∧
    handleCommand anyEnv "/rg myrg".data = .ok (some .handled) :=
  ⟨by decide, by decide, rfl⟩

/-- C7 counterexample: the abbreviation table derives the completion
`@storage:foo` for a storage account, but no entry of `MENTION_PATTERNS`
matches the `@storage:` shape: the token produces zero matches and passes
through `resolve_mentions` unresolved and unreplaced. -/
theorem storage_mention_never_resolved :
    (getResourceCompletions [storageRes]).map Prod.fst = ["@storage:foo".data] ∧
    countAll idleOracle MENTION_KINDS "check @storage:foo".data = 0 ∧
    resolveMentions idleOracle "check @storage:foo".data
      = "check @storage:foo".data :=
  ⟨by decide, by decide, by decide⟩

/-- C7 (amended): exactly the five fixed shapes `@sub`, `@rg:`, `@vm:`,
`@aks:`, `@file:` are matched and resolved — each occurrence yields one
resolver invocation and one replacement; dynamically-offered mentions from
the abbreviation table are completion-only, and a shape like
`@storage:<name>` is never matched, resolved or replaced. -/
theorem fixed_shapes_resolved_only :
    countAll labelOracle MENTION_KINDS "@sub @rg:g @vm:v @aks:a @file:f".data = 5 ∧
    (runAll labelOracle MENTION_KINDS "@sub @rg:g @vm:v @aks:a @file:f".data).1.length
      = 5 ∧
    (runAll labelOracle MENTION_KINDS "@sub @rg:g @vm:v @aks:a @file:f".data).2
      = "X X X X X".data ∧
    countAll labelOracle MENTION_KINDS "use @storage:foo now".data = 0 ∧
    resolveMentions labelOracle "use @storage:foo now".data
      = "use @storage:foo now".data :=
  ⟨by decide, by decide, by decide, by decide, by decide⟩

set_option maxRecDepth 4000 in
/-- C8: end-to-end example: `scale out @aks:prod to 5 nodes` with a
successful backend lookup produces the context block whose first line is
`[Azure Context: AKS Cluster 'prod']`, followed by a blank-line separator
and exactly `User question: scale out AKS cluster 'prod' to 5 nodes`. -/
theorem aks_end_to_end :
    resolveMentions (backendOracle c8Backend idleOracle)
      "scale out @aks:prod to 5 nodes".data
      = aksContextBlock "prod".data c8Cluster
        ++ "\n\nUser question: scale out AKS cluster 'prod' to 5 nodes".data ∧
    firstLine (aksContextBlock "prod".data c8Cluster)
      = "[Azure Context: AKS Cluster 'prod']".data :=
  ⟨by decide, by decide⟩

/-- C9: `resolve_mentions` is the identity, byte for byte, on input without
any mention token: with no match, no context block is collected and the
original (not the whitespace-cleaned) string is returned. -/
theorem resolve_identity_on_mention_free (o : Oracle) (input : List Char)
    (h : noMentionTokens input = true) :
    resolveMentions o input = input := by
  have hall : ∀ k ∈ MENTION_KINDS, findIter (patOf k) input = [] := by
    intro k hk
    have h2 := List.all_eq_true.mp h k hk
    simpa using h2
  unfold resolveMentions
  rw [runAll_of_no_matches o MENTION_KINDS input hall]
  simp

/-- C9 witness: a concrete mention-free input is returned unchanged. -/
theorem resolve_identity_on_mention_free_witness :
    noMentionTokens "list my  storage accounts".data = true ∧
    resolveMentions idleOracle "list my  storage accounts".data
      = "list my  storage accounts".data :=
  ⟨by decide,
   resolve_identity_on_mention_free idleOracle "list my  storage accounts".data
     (by decide)⟩

/-- C10: any input whose stripped form starts with `/` makes
`handle_command` return a non-`None` sentinel (unknown commands report an
error and return `handled`) or raise; in both cases the turn neither
performs mention resolution nor submits anything to the agent. -/
theorem slash_input_never_reaches_agent (env : CommandEnv) (input : List Char)
    (rm : Except (List Char) (List Char)) (send : SendResult)
    (h : ("/".data).isPrefixOf (stripStr input) = true) :
    handleCommand env input ≠ .ok none ∧
    (replTurn (handleCommand env input) rm send).mentionsReached = false ∧
    (replTurn (handleCommand env input) rm send).agentReached = false := by
  rcases handleCommand_slash_cases env input h with ⟨e, he⟩ | ⟨sent, hs⟩
  · rw [he]
    exact ⟨fun hc => Except.noConfusion hc, rfl, rfl⟩
  · rw [hs]
    refine ⟨fun hc => Option.noConfusion (Except.ok.inj hc), ?_, ?_⟩
    · cases sent <;> rfl
    · cases sent <;> rfl

/-- C10 witness: `/help` is handled and never reaches mention resolution or
the agent. -/
theorem slash_input_never_reaches_agent_witness :
    ("/".data).isPrefixOf (stripStr "/help".data) = true ∧
    (handleCommand anyEnv "/help".data ≠ .ok none ∧
     (replTurn (handleCommand anyEnv "/help".data) (.ok []) .ok).mentionsReached
       = false ∧
     (replTurn (handleCommand anyEnv "/help".data) (.ok []) .ok).agentReached
       = false) :=
  ⟨by decide,
   slash_input_never_reaches_agent anyEnv "/help".data (.ok []) .ok (by decide)⟩

end Azsh
